import Mathlib

/-!
Verification of the HapSNPeval column classifier and alignment loader
(`src/HapSNPeval/HapSNPeval.cpp`).

The per-column classification loop (source lines 161-255) is embedded as a
pure step function `stepColumn` over an explicit state `EvalState`; the FASTA
reading loop (source lines 112-152) is embedded as `procLine`/`loadAll`; the
exit-code paths of `main` are embedded as `failureExitCode`/`exitAfterArgs`.
-/

/-- One alignment column: the characters of the two true haplotypes and the
two test haplotypes at a single index (`true_one[i]`, `true_two[i]`,
`test_one[i]`, `test_two[i]` in the source). -/
structure Column where
  true_one : Char
  true_two : Char
  test_one : Char
  test_two : Char
deriving DecidableEq, Repr

/-- The mutable counters and phase identities of `main` (source lines 55-59):
`test_one_id`/`test_two_id` are the phase identities (0 = unset, 1 = matches
true haplotype 1, 2 = matches true haplotype 2), the rest are the eight
counters. -/
structure EvalState where
  test_one_id : Nat
  test_two_id : Nat
  test_one_switches : Nat
  test_two_switches : Nat
  test_one_false_snps : Nat
  test_two_false_snps : Nat
  test_one_false_indels : Nat
  test_two_false_indels : Nat
  test_one_bad_calls : Nat
  test_two_bad_calls : Nat
deriving DecidableEq, Repr

/-- All counters zero, both identities unset (source initialisation). -/
def initState : EvalState :=
  ⟨0, 0, 0, 0, 0, 0, 0, 0, 0, 0⟩

/-- Homozygous site with at least one gap test base (source lines 163-175). -/
def stepHomGap (s : EvalState) (c : Column) : EvalState :=
  let s1 := if c.test_one ≠ '-' then
    { s with test_one_false_indels := s.test_one_false_indels + 1 } else s
  if c.test_two ≠ '-' then
    { s1 with test_two_false_indels := s1.test_two_false_indels + 1 } else s1

/-- Homozygous site, gap-free, test bases differ (source lines 176-188). -/
def stepHomSnp (s : EvalState) (c : Column) : EvalState :=
  if c.test_one ≠ c.true_one then
    { s with test_one_false_snps := s.test_one_false_snps + 1 }
  else
    { s with test_two_false_snps := s.test_two_false_snps + 1 }

/-- Heterozygous SNP, first test haplotype block (source lines 191-213). -/
def stepHetSnp1 (s : EvalState) (c : Column) : EvalState :=
  if c.test_one = c.true_one then
    let s1 := if s.test_one_id = 2 then
      { s with test_one_switches := s.test_one_switches + 1 } else s
    { s1 with test_one_id := 1 }
  else if c.test_one = c.true_two then
    let s1 := if s.test_one_id = 1 then
      { s with test_one_switches := s.test_one_switches + 1 } else s
    { s1 with test_one_id := 2 }
  else
    { s with test_one_bad_calls := s.test_one_bad_calls + 1 }

/-- Heterozygous SNP, second test haplotype block (source lines 214-236). -/
def stepHetSnp2 (s : EvalState) (c : Column) : EvalState :=
  if c.test_two = c.true_one then
    let s1 := if s.test_two_id = 2 then
      { s with test_two_switches := s.test_two_switches + 1 } else s
    { s1 with test_two_id := 1 }
  else if c.test_two = c.true_two then
    let s1 := if s.test_two_id = 1 then
      { s with test_two_switches := s.test_two_switches + 1 } else s
    { s1 with test_two_id := 2 }
  else
    { s with test_two_bad_calls := s.test_two_bad_calls + 1 }

/-- Heterozygous indel site (source lines 237-253); note the `else if`. -/
def stepHetIndel (s : EvalState) (c : Column) : EvalState :=
  if c.test_one ≠ c.true_one ∧ c.test_one ≠ c.true_two then
    { s with test_one_false_snps := s.test_one_false_snps + 1 }
  else if c.test_two ≠ c.true_one ∧ c.test_two ≠ c.true_two then
    { s with test_two_false_snps := s.test_two_false_snps + 1 }
  else s

/-- One iteration of the column loop (source lines 161-255). -/
def stepColumn (s : EvalState) (c : Column) : EvalState :=
  if c.true_one = c.true_two then
    if c.test_one = '-' ∨ c.test_two = '-' then stepHomGap s c
    else if c.test_one ≠ c.test_two then stepHomSnp s c
    else s
  else
    if c.true_one ≠ '-' ∧ c.true_two ≠ '-' then stepHetSnp2 (stepHetSnp1 s c) c
    else stepHetIndel s c

/-- The whole classification pass over the aligned columns. -/
def runEval (cols : List Column) : EvalState :=
  cols.foldl stepColumn initState

/-- A heterozygous SNP column: the true bases differ and neither is a gap. -/
def isHetSNP (c : Column) : Bool :=
  c.true_one != c.true_two && c.true_one != '-' && c.true_two != '-'

/-- A heterozygous indel column: the true bases differ and at least one is a
gap. -/
def isHetIndel (c : Column) : Bool :=
  c.true_one != c.true_two && (c.true_one == '-' || c.true_two == '-')

/-- Which true haplotype the first test haplotype matches at a column
(`some 1`, `some 2`, or `none` if it matches neither). -/
def matchId1 (c : Column) : Option Nat :=
  if c.test_one = c.true_one then some 1
  else if c.test_one = c.true_two then some 2
  else none

/-- Which true haplotype the second test haplotype matches at a column. -/
def matchId2 (c : Column) : Option Nat :=
  if c.test_two = c.true_one then some 1
  else if c.test_two = c.true_two then some 2
  else none

/-- Number of elements of the list that differ from the previous element,
starting from an optional previously seen value (`none` = no value yet, which
never produces a count). -/
def countFrom : Option Nat → List Nat → Nat
  | _, [] => 0
  | none, a :: rest => countFrom (some a) rest
  | some p, a :: rest => (if p = a then 0 else 1) + countFrom (some a) rest

/-- Number of adjacent changes in a list: the spec's reading of the switch
count, over the in-order list of matched true-haplotype identities. -/
def countChanges (l : List Nat) : Nat := countFrom none l

/-- The previously matched identity recorded by a phase-identity value:
1 and 2 record a match, anything else records no match yet. -/
def idLast (n : Nat) : Option Nat :=
  if n = 1 then some 1 else if n = 2 then some 2 else none

/-- Claim C1 as stated, at one column and state: at a heterozygous indel
column, each of the two test haplotypes whose base matches neither true base
has its false-SNP counter incremented. -/
def c1claimAt (s : EvalState) (c : Column) : Prop :=
  isHetIndel c = true →
    ((c.test_one ≠ c.true_one ∧ c.test_one ≠ c.true_two →
       (stepColumn s c).test_one_false_snps = s.test_one_false_snps + 1) ∧
     (c.test_two ≠ c.true_one ∧ c.test_two ≠ c.true_two →
       (stepColumn s c).test_two_false_snps = s.test_two_false_snps + 1))

/-- A FASTA record as the spec describes it: the header text after the
leading marker character, and the concatenation of its sequence lines. -/
structure FastaRecord where
  header : List Char
  seq : List Char
deriving DecidableEq, Repr

/-- The source's header test `line_buffer[0] == '>'` (an empty line reads as
the NUL character there, which is not '>'). -/
def isHeader (line : List Char) : Bool :=
  line.head? == some '>'

/-- Test whether the first list is an initial segment of the second. -/
def leadsList : List Char → List Char → Bool
  | [], _ => true
  | _ :: _, [] => false
  | a :: as, b :: bs => if a = b then leadsList as bs else false

/-- Test whether `p` occurs as a contiguous run somewhere in `l` (at any
position, including the empty occurrence at the end). -/
def occursIn (p l : List Char) : Bool :=
  l.tails.any (fun t => leadsList p t)

/-- The source's record-class test `line_buffer.find(true_prefix, 1) !=
string::npos`: the caller-supplied true-haplotype marker occurs in the line
at some position at or after index 1. -/
def headerHit (pfx line : List Char) : Bool :=
  occursIn pfx (line.drop 1)

/-- The loader's mutable variables (source lines 53-61): the four headers,
the four sequences and `record_num`. -/
@[ext]
structure LoaderState where
  true_one_header : List Char
  true_two_header : List Char
  test_one_header : List Char
  test_two_header : List Char
  true_one : List Char
  true_two : List Char
  test_one : List Char
  test_two : List Char
  record_num : Nat
deriving DecidableEq, Repr

/-- All strings empty, `record_num` 0 (source initialisation). -/
def initLoader : LoaderState :=
  ⟨[], [], [], [], [], [], [], [], 0⟩

/-- One iteration of the reading loop (source lines 112-152) on the line
delivered by `getline`. -/
def procLine (pfx : List Char) (s : LoaderState) (line : List Char) : LoaderState :=
  if isHeader line then
    if headerHit pfx line then
      if s.true_one_header = [] then
        { s with true_one_header := line.drop 1, record_num := 1 }
      else
        { s with true_two_header := line.drop 1, record_num := 2 }
    else
      if s.test_one_header = [] then
        { s with test_one_header := line.drop 1, record_num := 3 }
      else
        { s with test_two_header := line.drop 1, record_num := 4 }
  else
    match s.record_num with
    | 1 => { s with true_one := s.true_one ++ line }
    | 2 => { s with true_two := s.true_two ++ line }
    | 3 => { s with test_one := s.test_one ++ line }
    | 4 => { s with test_two := s.test_two ++ line }
    | _ => s

/-- The whole reading loop over the lines of the input stream. -/
def loadAll (pfx : List Char) (lines : List (List Char)) : LoaderState :=
  lines.foldl (procLine pfx) initLoader

/-- Accumulator step for cutting a line stream into FASTA records: the pair
holds the completed records and the record currently being read. -/
def addLine (acc : List FastaRecord × Option FastaRecord) (line : List Char) :
    List FastaRecord × Option FastaRecord :=
  if isHeader line then
    (acc.1 ++ acc.2.toList, some ⟨line.drop 1, []⟩)
  else
    match acc.2 with
    | none => acc
    | some r => (acc.1, some ⟨r.header, r.seq ++ line⟩)

/-- The FASTA records of a line stream, in file order (lines before the
first header belong to no record and are dropped). -/
def splitRecords (lines : List (List Char)) : List FastaRecord :=
  (lines.foldl addLine ([], none)).1 ++ (lines.foldl addLine ([], none)).2.toList

/-- The records whose header contains the true-haplotype marker. -/
def truOf (pfx : List Char) (recs : List FastaRecord) : List FastaRecord :=
  recs.filter (fun r => occursIn pfx r.header)

/-- The records whose header does not contain the true-haplotype marker. -/
def tstOf (pfx : List Char) (recs : List FastaRecord) : List FastaRecord :=
  recs.filter (fun r => ! occursIn pfx r.header)

/-- Header of the last record of a list ([] for the empty list). -/
def lastHeaderD : List FastaRecord → List Char
  | [] => []
  | [r] => r.header
  | _ :: r :: rs => lastHeaderD (r :: rs)

/-- Header held by slot one of a record class. -/
def slot1header : List FastaRecord → List Char
  | [] => []
  | r :: _ => r.header

/-- Sequence held by slot one of a record class. -/
def slot1seq : List FastaRecord → List Char
  | [] => []
  | r :: _ => r.seq

/-- Header held by slot two of a record class. -/
def slot2header : List FastaRecord → List Char
  | [] => []
  | _ :: rest => lastHeaderD rest

/-- Sequence held by slot two of a record class. -/
def slot2seq : List FastaRecord → List Char
  | [] => []
  | _ :: rest => (rest.map FastaRecord.seq).flatten

/-- The `record_num` value reached after the records `prev` followed by a
currently open record. -/
def rnFor (pfx : List Char) (prev : List FastaRecord) :
    Option FastaRecord → Nat
  | none => 0
  | some r =>
    if occursIn pfx r.header then (if truOf pfx prev = [] then 1 else 2)
    else (if tstOf pfx prev = [] then 3 else 4)

/-- The loader state whose slots hold the contents a record list assigns to
them, with an explicit `record_num`. -/
def mkStateL (pfx : List Char) (recs : List FastaRecord) (rn : Nat) :
    LoaderState :=
  { true_one_header := slot1header (truOf pfx recs)
    true_two_header := slot2header (truOf pfx recs)
    test_one_header := slot1header (tstOf pfx recs)
    test_two_header := slot2header (tstOf pfx recs)
    true_one := slot1seq (truOf pfx recs)
    true_two := slot2seq (truOf pfx recs)
    test_one := slot1seq (tstOf pfx recs)
    test_two := slot2seq (tstOf pfx recs)
    record_num := rn }

/-- The loader state determined by a record accumulator: each slot holds the
record contents its class assigns to it. -/
def mkState (pfx : List Char) (acc : List FastaRecord × Option FastaRecord) :
    LoaderState :=
  mkStateL pfx (acc.1 ++ acc.2.toList) (rnFor pfx acc.1 acc.2)

/-- Well-formedness of a record accumulator: every record seen so far has a
nonempty header, and an absent open record means nothing was seen at all. -/
def WfAcc (acc : List FastaRecord × Option FastaRecord) : Prop :=
  (∀ r ∈ acc.1 ++ acc.2.toList, r.header ≠ []) ∧ (acc.2 = none → acc.1 = [])

/-- Claim C3 as stated, for one input: the first two records of each header
class become, in file order, that class's haplotype 1 and haplotype 2. -/
def c3statement (pfx : List Char) (lines : List (List Char)) : Prop :=
  (∀ r1 r2 rest, truOf pfx (splitRecords lines) = r1 :: r2 :: rest →
    (loadAll pfx lines).true_one_header = r1.header ∧
    (loadAll pfx lines).true_one = r1.seq ∧
    (loadAll pfx lines).true_two_header = r2.header ∧
    (loadAll pfx lines).true_two = r2.seq) ∧
  (∀ r1 r2 rest, tstOf pfx (splitRecords lines) = r1 :: r2 :: rest →
    (loadAll pfx lines).test_one_header = r1.header ∧
    (loadAll pfx lines).test_one = r1.seq ∧
    (loadAll pfx lines).test_two_header = r2.header ∧
    (loadAll pfx lines).test_two = r2.seq)

/-- Claim C10 as stated, for one input: with more than two records in a
class, the records after the second all land in slot two — the slot-two
header ends up being the last one's header and the slot-two sequence is the
concatenation of the sequences from the second record on. -/
def c10statement (pfx : List Char) (lines : List (List Char)) : Prop :=
  (∀ r1 r2 r3 rest, truOf pfx (splitRecords lines) = r1 :: r2 :: r3 :: rest →
    (loadAll pfx lines).true_two_header = lastHeaderD (r2 :: r3 :: rest) ∧
    (loadAll pfx lines).true_two = ((r2 :: r3 :: rest).map FastaRecord.seq).flatten) ∧
  (∀ r1 r2 r3 rest, tstOf pfx (splitRecords lines) = r1 :: r2 :: r3 :: rest →
    (loadAll pfx lines).test_two_header = lastHeaderD (r2 :: r3 :: rest) ∧
    (loadAll pfx lines).test_two = ((r2 :: r3 :: rest).map FastaRecord.seq).flatten)

/-- The distinct failure kinds of the command-line front end (source lines
64-107 and 153-157). -/
inductive CliFailure
  | helpRequested
  | missingTruePfx
  | invalidOption
  | unreadableFile
  | missingInputPath
  | readErrorMidFile
deriving DecidableEq, Repr

/-- The process exit code of each failure kind: the `helpflag` values 1, 3,
4, 5, 6 returned at source line 106, and the early `return 7` at source
line 156. -/
def failureExitCode : CliFailure → Nat
  | .helpRequested => 1
  | .missingTruePfx => 3
  | .invalidOption => 4
  | .unreadableFile => 5
  | .missingInputPath => 6
  | .readErrorMidFile => 7

/-- The exit code of the success path (source line 267). -/
def successExitCode : Nat := 0

/-- All failure kinds. -/
def allFailures : List CliFailure :=
  [.helpRequested, .missingTruePfx, .invalidOption, .unreadableFile,
   .missingInputPath, .readErrorMidFile]

/-- The exit decision of `main` after argument handling: a nonzero
`helpflag` is returned at once (source line 106), then a mid-file read
failure returns 7 (source line 156), otherwise the run ends with 0. -/
def exitAfterArgs (helpflag : Nat) (readErr : Bool) : Nat :=
  if helpflag ≠ 0 then helpflag else if readErr then 7 else 0

-- Theorems for the per-column claims.

/-- C1 (as stated) is false: at a heterozygous indel column where both test
bases match neither true base, only the first test haplotype is charged a
false SNP (the source uses `else if`), so the second haplotype's counter
stays 0 where the claim demands 1. Column: true1='A', true2='-',
test1='C', test2='C'. -/
theorem c1_counterexample : ¬ c1claimAt initState ⟨'A', '-', 'C', 'C'⟩ := by
  unfold c1claimAt
  decide

/-- C1 amended: at a heterozygous indel column, the first test haplotype is
charged a false SNP iff its base matches neither true base, while the second
is charged iff the first matched at least one true base and the second
matches neither (the two are never charged at the same column). -/
theorem c1_indel_false_snp (s : EvalState) (c : Column)
    (h : isHetIndel c = true) :
    (stepColumn s c).test_one_false_snps
      = s.test_one_false_snps
        + (if c.test_one ≠ c.true_one ∧ c.test_one ≠ c.true_two then 1 else 0) ∧
    (stepColumn s c).test_two_false_snps
      = s.test_two_false_snps
        + (if (c.test_one = c.true_one ∨ c.test_one = c.true_two)
              ∧ c.test_two ≠ c.true_one ∧ c.test_two ≠ c.true_two then 1 else 0) := by
  simp only [isHetIndel, Bool.and_eq_true, Bool.or_eq_true, bne_iff_ne, ne_eq,
    beq_iff_eq] at h
  obtain ⟨hne, hgap⟩ := h
  have hhet : ¬ (c.true_one ≠ '-' ∧ c.true_two ≠ '-') := by
    rcases hgap with h1 | h2
    · exact fun hc => hc.1 h1
    · exact fun hc => hc.2 h2
  unfold stepColumn
  rw [if_neg hne, if_neg hhet]
  unfold stepHetIndel
  by_cases h1 : c.test_one ≠ c.true_one ∧ c.test_one ≠ c.true_two
  · rw [if_pos h1]
    constructor
    · simp [if_pos h1]
    · have : ¬ ((c.test_one = c.true_one ∨ c.test_one = c.true_two)
          ∧ c.test_two ≠ c.true_one ∧ c.test_two ≠ c.true_two) := by
        rintro ⟨hm, -⟩
        rcases hm with hm | hm
        · exact h1.1 hm
        · exact h1.2 hm
      simp [this]
  · rw [if_neg h1]
    have hm : c.test_one = c.true_one ∨ c.test_one = c.true_two := by
      by_contra hc
      push_neg at hc
      exact h1 hc
    by_cases h2 : c.test_two ≠ c.true_one ∧ c.test_two ≠ c.true_two
    · rw [if_pos h2]
      constructor
      · simp [h1]
      · simp [hm, h2]
    · rw [if_neg h2]
      constructor
      · simp [h1]
      · have : ¬ ((c.test_one = c.true_one ∨ c.test_one = c.true_two)
            ∧ c.test_two ≠ c.true_one ∧ c.test_two ≠ c.true_two) := by
          rintro ⟨-, hq⟩
          exact h2 hq
        simp [this]

/-- Witness for the amended C1 at the concrete column true1='A', true2='-',
test1='C', test2='C'. -/
theorem c1_indel_false_snp_witness :
    (stepColumn initState ⟨'A', '-', 'C', 'C'⟩).test_one_false_snps = 1 ∧
    (stepColumn initState ⟨'A', '-', 'C', 'C'⟩).test_two_false_snps = 0 := by
  have h := c1_indel_false_snp initState ⟨'A', '-', 'C', 'C'⟩ (by decide)
  exact ⟨h.1.trans (by decide), h.2.trans (by decide)⟩

/-- C4: at a homozygous column with at least one gap test base, each test
haplotype's false-indel counter is incremented exactly when its own base is
not the gap symbol; no other counter and neither phase identity changes
(in particular two gap test bases change nothing). -/
theorem c4_false_indel (s : EvalState) (c : Column)
    (hhom : c.true_one = c.true_two)
    (hgap : c.test_one = '-' ∨ c.test_two = '-') :
    (stepColumn s c).test_one_false_indels
      = s.test_one_false_indels + (if c.test_one ≠ '-' then 1 else 0) ∧
    (stepColumn s c).test_two_false_indels
      = s.test_two_false_indels + (if c.test_two ≠ '-' then 1 else 0) ∧
    (stepColumn s c).test_one_switches = s.test_one_switches ∧
    (stepColumn s c).test_two_switches = s.test_two_switches ∧
    (stepColumn s c).test_one_false_snps = s.test_one_false_snps ∧
    (stepColumn s c).test_two_false_snps = s.test_two_false_snps ∧
    (stepColumn s c).test_one_bad_calls = s.test_one_bad_calls ∧
    (stepColumn s c).test_two_bad_calls = s.test_two_bad_calls ∧
    (stepColumn s c).test_one_id = s.test_one_id ∧
    (stepColumn s c).test_two_id = s.test_two_id := by
  unfold stepColumn
  rw [if_pos hhom, if_pos hgap]
  unfold stepHomGap
  by_cases h1 : c.test_one ≠ '-' <;> by_cases h2 : c.test_two ≠ '-' <;>
    simp [h1, h2]

/-- Witness for C4 at the concrete homozygous column true='A', test1='-',
test2='A' (spec scenario D). -/
theorem c4_false_indel_witness :
    (stepColumn initState ⟨'A', 'A', '-', 'A'⟩).test_one_false_indels = 0 ∧
    (stepColumn initState ⟨'A', 'A', '-', 'A'⟩).test_two_false_indels = 1 := by
  have h := c4_false_indel initState ⟨'A', 'A', '-', 'A'⟩ (by decide) (by decide)
  exact ⟨h.1.trans (by decide), h.2.1.trans (by decide)⟩

/-- C5: at a homozygous, gap-free column where the two test bases differ,
exactly one false-SNP counter is incremented: test haplotype 1's if its base
differs from the shared true base, otherwise test haplotype 2's; everything
else, including both phase identities, is untouched. -/
theorem c5_hom_false_snp (s : EvalState) (c : Column)
    (hhom : c.true_one = c.true_two)
    (h1 : c.test_one ≠ '-') (h2 : c.test_two ≠ '-')
    (hne : c.test_one ≠ c.test_two) :
    (c.test_one ≠ c.true_one →
      stepColumn s c = { s with test_one_false_snps := s.test_one_false_snps + 1 }) ∧
    (c.test_one = c.true_one →
      stepColumn s c = { s with test_two_false_snps := s.test_two_false_snps + 1 }) := by
  have hgap : ¬ (c.test_one = '-' ∨ c.test_two = '-') := by
    rintro (h | h)
    · exact h1 h
    · exact h2 h
  unfold stepColumn
  rw [if_pos hhom, if_neg hgap, if_pos hne]
  unfold stepHomSnp
  constructor
  · intro hd; rw [if_pos hd]
  · intro hd; rw [if_neg (by simp [hd])]

/-- Witness for C5 at the concrete homozygous column true='A', test1='C',
test2='A': only test haplotype 1 is charged. -/
theorem c5_hom_false_snp_witness :
    stepColumn initState ⟨'A', 'A', 'C', 'A'⟩
      = { initState with test_one_false_snps := 1 } := by
  have h := c5_hom_false_snp initState ⟨'A', 'A', 'C', 'A'⟩
    (by decide) (by decide) (by decide) (by decide)
  exact h.1 (by decide)

/-- C6: at a heterozygous SNP column, a test haplotype whose base matches
neither true base gets its bad-call counter incremented and keeps its phase
identity. -/
theorem c6_bad_call (s : EvalState) (c : Column) (hhet : isHetSNP c = true) :
    (c.test_one ≠ c.true_one → c.test_one ≠ c.true_two →
      (stepColumn s c).test_one_bad_calls = s.test_one_bad_calls + 1 ∧
      (stepColumn s c).test_one_id = s.test_one_id) ∧
    (c.test_two ≠ c.true_one → c.test_two ≠ c.true_two →
      (stepColumn s c).test_two_bad_calls = s.test_two_bad_calls + 1 ∧
      (stepColumn s c).test_two_id = s.test_two_id) := by
  simp only [isHetSNP, Bool.and_eq_true, bne_iff_ne, ne_eq] at hhet
  obtain ⟨⟨hne, hg1⟩, hg2⟩ := hhet
  unfold stepColumn
  rw [if_neg hne, if_pos ⟨hg1, hg2⟩]
  constructor
  · intro ha hb
    unfold stepHetSnp1
    rw [if_neg ha, if_neg hb]
    unfold stepHetSnp2
    by_cases q1 : c.test_two = c.true_one
    · rw [if_pos q1]; by_cases q : s.test_two_id = 2 <;> simp [q]
    · rw [if_neg q1]
      by_cases q2 : c.test_two = c.true_two
      · rw [if_pos q2]; by_cases q : s.test_two_id = 1 <;> simp [q]
      · rw [if_neg q2]; simp
  · intro ha hb
    have h2 : ∀ t : EvalState, t.test_two_bad_calls = s.test_two_bad_calls →
        t.test_two_id = s.test_two_id →
        (stepHetSnp2 t c).test_two_bad_calls = s.test_two_bad_calls + 1 ∧
        (stepHetSnp2 t c).test_two_id = s.test_two_id := by
      intro t hc hi
      unfold stepHetSnp2
      rw [if_neg ha, if_neg hb]
      simp [hc, hi]
    apply h2
    · unfold stepHetSnp1
      by_cases q1 : c.test_one = c.true_one
      · rw [if_pos q1]; by_cases q : s.test_one_id = 2 <;> simp [q]
      · rw [if_neg q1]
        by_cases q2 : c.test_one = c.true_two
        · rw [if_pos q2]; by_cases q : s.test_one_id = 1 <;> simp [q]
        · rw [if_neg q2]
    · unfold stepHetSnp1
      by_cases q1 : c.test_one = c.true_one
      · rw [if_pos q1]; by_cases q : s.test_one_id = 2 <;> simp [q]
      · rw [if_neg q1]
        by_cases q2 : c.test_one = c.true_two
        · rw [if_pos q2]; by_cases q : s.test_one_id = 1 <;> simp [q]
        · rw [if_neg q2]

/-- Witness for C6 at the heterozygous SNP column true1='A', true2='C',
test1='G' (matches neither), test2='A' (spec scenario E). -/
theorem c6_bad_call_witness :
    (stepColumn initState ⟨'A', 'C', 'G', 'A'⟩).test_one_bad_calls = 1 ∧
    (stepColumn initState ⟨'A', 'C', 'G', 'A'⟩).test_one_id = 0 := by
  have h := c6_bad_call initState ⟨'A', 'C', 'G', 'A'⟩ (by decide)
  have h1 := h.1 (by decide) (by decide)
  exact ⟨h1.1.trans (by decide), h1.2.trans (by decide)⟩

/-- C7: the phase identities are only ever written at heterozygous SNP
columns: any homozygous or indel column leaves both identities unchanged. -/
theorem c7_phase_frame (s : EvalState) (c : Column) (h : isHetSNP c = false) :
    (stepColumn s c).test_one_id = s.test_one_id ∧
    (stepColumn s c).test_two_id = s.test_two_id := by
  simp only [isHetSNP, Bool.and_eq_false_iff, bne_eq_false_iff_eq,
    bne_iff_ne, ne_eq] at h
  unfold stepColumn
  by_cases hhom : c.true_one = c.true_two
  · rw [if_pos hhom]
    by_cases hgap : c.test_one = '-' ∨ c.test_two = '-'
    · rw [if_pos hgap]
      unfold stepHomGap
      by_cases h1 : c.test_one ≠ '-' <;> by_cases h2 : c.test_two ≠ '-' <;>
        simp [h1, h2]
    · rw [if_neg hgap]
      by_cases hne : c.test_one ≠ c.test_two
      · rw [if_pos hne]
        unfold stepHomSnp
        by_cases hd : c.test_one ≠ c.true_one <;> simp [hd]
      · rw [if_neg hne]; exact ⟨rfl, rfl⟩
  · rw [if_neg hhom]
    have hind : ¬ (c.true_one ≠ '-' ∧ c.true_two ≠ '-') := by
      rcases h with (h | h) | h
      · exact absurd h (by simpa using hhom)
      · intro hc; exact hc.1 h
      · intro hc; exact hc.2 h
    rw [if_neg hind]
    unfold stepHetIndel
    by_cases h1 : c.test_one ≠ c.true_one ∧ c.test_one ≠ c.true_two
    · simp [h1]
    · rw [if_neg h1]
      by_cases h2 : c.test_two ≠ c.true_one ∧ c.test_two ≠ c.true_two <;>
        simp [h2]

/-- Witness for C7 at a concrete homozygous column, from a state with both
identities set. -/
theorem c7_phase_frame_witness :
    (stepColumn { initState with test_one_id := 1, test_two_id := 2 }
        ⟨'A', 'A', 'C', '-'⟩).test_one_id = 1 ∧
    (stepColumn { initState with test_one_id := 1, test_two_id := 2 }
        ⟨'A', 'A', 'C', '-'⟩).test_two_id = 2 := by
  have h := c7_phase_frame { initState with test_one_id := 1, test_two_id := 2 }
    ⟨'A', 'A', 'C', '-'⟩ (by decide)
  exact ⟨h.1.trans (by decide), h.2.trans (by decide)⟩

/-- C8: a homozygous column whose two test bases are equal and gap-free
changes nothing at all — counters and identities included — even if the
shared test base differs from the true base. -/
theorem c8_hom_clean (s : EvalState) (c : Column)
    (hhom : c.true_one = c.true_two)
    (h1 : c.test_one ≠ '-') (h2 : c.test_two ≠ '-')
    (heq : c.test_one = c.test_two) :
    stepColumn s c = s := by
  have hgap : ¬ (c.test_one = '-' ∨ c.test_two = '-') := by
    rintro (h | h)
    · exact h1 h
    · exact h2 h
  unfold stepColumn
  rw [if_pos hhom, if_neg hgap, if_neg (by simpa using heq)]

/-- Witness for C8 at the concrete column true='A', test1=test2='C' (the
shared test base even differs from the true base). -/
theorem c8_hom_clean_witness :
    stepColumn initState ⟨'A', 'A', 'C', 'C'⟩ = initState :=
  c8_hom_clean initState ⟨'A', 'A', 'C', 'C'⟩
    (by decide) (by decide) (by decide) (by decide)

-- Helper lemmas for the switch-count analysis (claim C2).

theorem stepColumn_het (s : EvalState) (c : Column) (h : isHetSNP c = true) :
    stepColumn s c = stepHetSnp2 (stepHetSnp1 s c) c := by
  simp only [isHetSNP, Bool.and_eq_true, bne_iff_ne, ne_eq] at h
  obtain ⟨⟨hne, hg1⟩, hg2⟩ := h
  unfold stepColumn
  rw [if_neg hne, if_pos ⟨hg1, hg2⟩]

theorem step_nonhet_fields (s : EvalState) (c : Column) (h : isHetSNP c = false) :
    (stepColumn s c).test_one_id = s.test_one_id ∧
    (stepColumn s c).test_one_switches = s.test_one_switches ∧
    (stepColumn s c).test_two_id = s.test_two_id ∧
    (stepColumn s c).test_two_switches = s.test_two_switches := by
  simp only [isHetSNP, Bool.and_eq_false_iff, bne_eq_false_iff_eq,
    bne_iff_ne, ne_eq] at h
  unfold stepColumn
  by_cases hhom : c.true_one = c.true_two
  · rw [if_pos hhom]
    by_cases hgap : c.test_one = '-' ∨ c.test_two = '-'
    · rw [if_pos hgap]
      unfold stepHomGap
      by_cases h1 : c.test_one ≠ '-' <;> by_cases h2 : c.test_two ≠ '-' <;>
        simp [h1, h2]
    · rw [if_neg hgap]
      by_cases hne : c.test_one ≠ c.test_two
      · rw [if_pos hne]
        unfold stepHomSnp
        by_cases hd : c.test_one ≠ c.true_one <;> simp [hd]
      · rw [if_neg hne]; exact ⟨rfl, rfl, rfl, rfl⟩
  · rw [if_neg hhom]
    have hind : ¬ (c.true_one ≠ '-' ∧ c.true_two ≠ '-') := by
      rcases h with (h | h) | h
      · exact absurd h (by simpa using hhom)
      · intro hc; exact hc.1 h
      · intro hc; exact hc.2 h
    rw [if_neg hind]
    unfold stepHetIndel
    by_cases h1 : c.test_one ≠ c.true_one ∧ c.test_one ≠ c.true_two
    · simp [h1]
    · rw [if_neg h1]
      by_cases h2 : c.test_two ≠ c.true_one ∧ c.test_two ≠ c.true_two <;>
        simp [h2]

theorem hetSnp1_match1 (s : EvalState) (c : Column) (h : c.test_one = c.true_one) :
    (stepHetSnp1 s c).test_one_id = 1 ∧
    (stepHetSnp1 s c).test_one_switches
      = s.test_one_switches + (if s.test_one_id = 2 then 1 else 0) := by
  unfold stepHetSnp1
  rw [if_pos h]
  by_cases q : s.test_one_id = 2 <;> simp [q]

theorem hetSnp1_match2 (s : EvalState) (c : Column)
    (h1 : c.test_one ≠ c.true_one) (h2 : c.test_one = c.true_two) :
    (stepHetSnp1 s c).test_one_id = 2 ∧
    (stepHetSnp1 s c).test_one_switches
      = s.test_one_switches + (if s.test_one_id = 1 then 1 else 0) := by
  unfold stepHetSnp1
  rw [if_neg h1, if_pos h2]
  by_cases q : s.test_one_id = 1 <;> simp [q]

theorem hetSnp1_nomatch (s : EvalState) (c : Column)
    (h1 : c.test_one ≠ c.true_one) (h2 : c.test_one ≠ c.true_two) :
    (stepHetSnp1 s c).test_one_id = s.test_one_id ∧
    (stepHetSnp1 s c).test_one_switches = s.test_one_switches := by
  unfold stepHetSnp1
  rw [if_neg h1, if_neg h2]
  exact ⟨rfl, rfl⟩

theorem hetSnp2_one_fields (s : EvalState) (c : Column) :
    (stepHetSnp2 s c).test_one_id = s.test_one_id ∧
    (stepHetSnp2 s c).test_one_switches = s.test_one_switches := by
  unfold stepHetSnp2
  by_cases q1 : c.test_two = c.true_one
  · rw [if_pos q1]; by_cases q : s.test_two_id = 2 <;> simp [q]
  · rw [if_neg q1]
    by_cases q2 : c.test_two = c.true_two
    · rw [if_pos q2]; by_cases q : s.test_two_id = 1 <;> simp [q]
    · rw [if_neg q2]; exact ⟨rfl, rfl⟩

theorem hetSnp1_two_fields (s : EvalState) (c : Column) :
    (stepHetSnp1 s c).test_two_id = s.test_two_id ∧
    (stepHetSnp1 s c).test_two_switches = s.test_two_switches := by
  unfold stepHetSnp1
  by_cases q1 : c.test_one = c.true_one
  · rw [if_pos q1]; by_cases q : s.test_one_id = 2 <;> simp [q]
  · rw [if_neg q1]
    by_cases q2 : c.test_one = c.true_two
    · rw [if_pos q2]; by_cases q : s.test_one_id = 1 <;> simp [q]
    · rw [if_neg q2]; exact ⟨rfl, rfl⟩

theorem hetSnp2_match1 (s : EvalState) (c : Column) (h : c.test_two = c.true_one) :
    (stepHetSnp2 s c).test_two_id = 1 ∧
    (stepHetSnp2 s c).test_two_switches
      = s.test_two_switches + (if s.test_two_id = 2 then 1 else 0) := by
  unfold stepHetSnp2
  rw [if_pos h]
  by_cases q : s.test_two_id = 2 <;> simp [q]

theorem hetSnp2_match2 (s : EvalState) (c : Column)
    (h1 : c.test_two ≠ c.true_one) (h2 : c.test_two = c.true_two) :
    (stepHetSnp2 s c).test_two_id = 2 ∧
    (stepHetSnp2 s c).test_two_switches
      = s.test_two_switches + (if s.test_two_id = 1 then 1 else 0) := by
  unfold stepHetSnp2
  rw [if_neg h1, if_pos h2]
  by_cases q : s.test_two_id = 1 <;> simp [q]

theorem hetSnp2_nomatch (s : EvalState) (c : Column)
    (h1 : c.test_two ≠ c.true_one) (h2 : c.test_two ≠ c.true_two) :
    (stepHetSnp2 s c).test_two_id = s.test_two_id ∧
    (stepHetSnp2 s c).test_two_switches = s.test_two_switches := by
  unfold stepHetSnp2
  rw [if_neg h1, if_neg h2]
  exact ⟨rfl, rfl⟩

theorem foldl_switch_one (cols : List Column) : ∀ s : EvalState,
    (List.foldl stepColumn s cols).test_one_switches
      = s.test_one_switches
        + countFrom (idLast s.test_one_id) ((cols.filter isHetSNP).filterMap matchId1) := by
  induction cols with
  | nil => intro s; simp [countFrom]
  | cons c rest ih =>
    intro s
    rw [List.foldl_cons, ih (stepColumn s c)]
    rcases hh : isHetSNP c with _ | _
    · have hp := step_nonhet_fields s c hh
      rw [hp.1, hp.2.1]
      simp [List.filter_cons, hh]
    · have hstep : stepColumn s c = stepHetSnp2 (stepHetSnp1 s c) c :=
        stepColumn_het s c hh
      have hpres := hetSnp2_one_fields (stepHetSnp1 s c) c
      rw [hstep, hpres.1, hpres.2]
      by_cases m1 : c.test_one = c.true_one
      · have h1 := hetSnp1_match1 s c m1
        rw [h1.1, h1.2]
        simp only [List.filter_cons, hh, if_pos, List.filterMap_cons,
          matchId1, m1, if_true]
        by_cases e1 : s.test_one_id = 1 <;> by_cases e2 : s.test_one_id = 2 <;>
          simp [idLast, e1, e2, countFrom] <;> omega
      · by_cases m2 : c.test_one = c.true_two
        · have h1 := hetSnp1_match2 s c m1 m2
          have hm : matchId1 c = some 2 := by
            unfold matchId1; rw [if_neg m1, if_pos m2]
          rw [h1.1, h1.2]
          simp only [List.filter_cons, hh, if_pos, List.filterMap_cons, hm,
            if_true]
          by_cases e1 : s.test_one_id = 1 <;> by_cases e2 : s.test_one_id = 2 <;>
            simp [idLast, e1, e2, countFrom] <;> omega
        · have h1 := hetSnp1_nomatch s c m1 m2
          rw [h1.1, h1.2]
          simp [List.filter_cons, hh, List.filterMap_cons, matchId1, m1, m2]

theorem foldl_switch_two (cols : List Column) : ∀ s : EvalState,
    (List.foldl stepColumn s cols).test_two_switches
      = s.test_two_switches
        + countFrom (idLast s.test_two_id) ((cols.filter isHetSNP).filterMap matchId2) := by
  induction cols with
  | nil => intro s; simp [countFrom]
  | cons c rest ih =>
    intro s
    rw [List.foldl_cons, ih (stepColumn s c)]
    rcases hh : isHetSNP c with _ | _
    · have hp := step_nonhet_fields s c hh
      rw [hp.2.2.1, hp.2.2.2]
      simp [List.filter_cons, hh]
    · have hstep : stepColumn s c = stepHetSnp2 (stepHetSnp1 s c) c :=
        stepColumn_het s c hh
      have hmid := hetSnp1_two_fields s c
      by_cases m1 : c.test_two = c.true_one
      · have h1 := hetSnp2_match1 (stepHetSnp1 s c) c m1
        rw [hstep, h1.1, h1.2, hmid.1, hmid.2]
        simp only [List.filter_cons, hh, if_pos, List.filterMap_cons,
          matchId2, m1, if_true]
        by_cases e1 : s.test_two_id = 1 <;> by_cases e2 : s.test_two_id = 2 <;>
          simp [idLast, e1, e2, countFrom] <;> omega
      · by_cases m2 : c.test_two = c.true_two
        · have h1 := hetSnp2_match2 (stepHetSnp1 s c) c m1 m2
          have hm : matchId2 c = some 2 := by
            unfold matchId2; rw [if_neg m1, if_pos m2]
          rw [hstep, h1.1, h1.2, hmid.1, hmid.2]
          simp only [List.filter_cons, hh, if_pos, List.filterMap_cons, hm,
            if_true]
          by_cases e1 : s.test_two_id = 1 <;> by_cases e2 : s.test_two_id = 2 <;>
            simp [idLast, e1, e2, countFrom] <;> omega
        · have h1 := hetSnp2_nomatch (stepHetSnp1 s c) c m1 m2
          rw [hstep, h1.1, h1.2, hmid.1, hmid.2]
          simp [List.filter_cons, hh, List.filterMap_cons, matchId2, m1, m2]

/-- C2: for each test haplotype, the final switch count equals the number of
adjacent changes in the in-order list of true-haplotype identities it matches
at heterozygous SNP columns; columns matching neither true base are skipped
and the first match (from the unset identity) never counts as a switch. -/
theorem c2_switch_count (cols : List Column) :
    (runEval cols).test_one_switches
      = countChanges ((cols.filter isHetSNP).filterMap matchId1) ∧
    (runEval cols).test_two_switches
      = countChanges ((cols.filter isHetSNP).filterMap matchId2) := by
  unfold runEval countChanges
  constructor
  · rw [foldl_switch_one cols initState]
    simp [initState, idLast]
  · rw [foldl_switch_two cols initState]
    simp [initState, idLast]

-- Helper lemmas for the loader analysis (claims C3 and C10).

theorem lastHeaderD_append (xs : List FastaRecord) (x : FastaRecord) :
    lastHeaderD (xs ++ [x]) = x.header := by
  induction xs with
  | nil => rfl
  | cons a rest ih =>
    cases rest with
    | nil => rfl
    | cons b rs =>
      simpa only [List.cons_append, lastHeaderD] using ih

theorem truOf_append (pfx : List Char) (a b : List FastaRecord) :
    truOf pfx (a ++ b) = truOf pfx a ++ truOf pfx b := by
  simp [truOf]

theorem tstOf_append (pfx : List Char) (a b : List FastaRecord) :
    tstOf pfx (a ++ b) = tstOf pfx a ++ tstOf pfx b := by
  simp [tstOf]

theorem truOf_single_hit (pfx : List Char) (r : FastaRecord)
    (h : occursIn pfx r.header = true) : truOf pfx [r] = [r] := by
  simp [truOf, List.filter, h]

theorem truOf_single_miss (pfx : List Char) (r : FastaRecord)
    (h : occursIn pfx r.header = false) : truOf pfx [r] = [] := by
  simp [truOf, List.filter, h]

theorem tstOf_single_hit (pfx : List Char) (r : FastaRecord)
    (h : occursIn pfx r.header = true) : tstOf pfx [r] = [] := by
  simp [tstOf, List.filter, h]

theorem tstOf_single_miss (pfx : List Char) (r : FastaRecord)
    (h : occursIn pfx r.header = false) : tstOf pfx [r] = [r] := by
  simp [tstOf, List.filter, h]

theorem slot1header_eq_nil (rs : List FastaRecord)
    (h : ∀ r ∈ rs, r.header ≠ []) : slot1header rs = [] ↔ rs = [] := by
  cases rs with
  | nil => simp [slot1header]
  | cons r rest =>
    simp only [slot1header, List.cons_ne_nil, iff_false]
    exact h r (List.mem_cons_self r rest)

theorem addLine_wf (acc : List FastaRecord × Option FastaRecord) (line : List Char)
    (hwf : WfAcc acc) (hline : isHeader line = true → line.drop 1 ≠ []) :
    WfAcc (addLine acc line) := by
  obtain ⟨done, cur⟩ := acc
  obtain ⟨hhead, hcur⟩ := hwf
  by_cases hl : isHeader line = true
  · constructor
    · intro r hr
      simp only [addLine, hl, if_true] at hr
      rcases List.mem_append.mp hr with hr | hr
      · exact hhead r hr
      · simp at hr
        subst hr
        simpa using hline hl
    · intro h
      simp [addLine, hl] at h
  · have hl' : isHeader line = false := by simpa using hl
    cases cur with
    | none =>
      simpa only [addLine, hl', Bool.false_eq_true, if_false] using ⟨hhead, hcur⟩
    | some r =>
      constructor
      · intro q hq
        simp only [addLine, hl', Bool.false_eq_true, if_false] at hq
        rcases List.mem_append.mp hq with hq | hq
        · exact hhead q (List.mem_append_left _ hq)
        · simp at hq
          subst hq
          exact hhead r (by simp)
      · intro h
        simp [addLine, hl'] at h


theorem procHeaderHitFirst (pfx line : List Char) (full : List FastaRecord)
    (rn : Nat) (hl : isHeader line = true) (hhit : headerHit pfx line = true)
    (hemp : truOf pfx full = []) :
    procLine pfx (mkStateL pfx full rn) line
      = mkStateL pfx (full ++ [⟨line.drop 1, []⟩]) 1 := by
  have hocc : occursIn pfx (line.drop 1) = true := hhit
  have hocc' : occursIn pfx line.tail = true := by simpa using hocc
  simp [procLine, mkStateL, hl, hhit, hemp, truOf_append, tstOf_append,
    truOf_single_hit, tstOf_single_hit, hocc, hocc',
    slot1header, slot1seq, slot2header, slot2seq, lastHeaderD]

theorem procHeaderHitSecond (pfx line : List Char) (full : List FastaRecord)
    (rn : Nat) (hl : isHeader line = true) (hhit : headerHit pfx line = true)
    (t : FastaRecord) (ts : List FastaRecord)
    (htts : truOf pfx full = t :: ts) (ht : t.header ≠ []) :
    procLine pfx (mkStateL pfx full rn) line
      = mkStateL pfx (full ++ [⟨line.drop 1, []⟩]) 2 := by
  have hocc : occursIn pfx (line.drop 1) = true := hhit
  have hocc' : occursIn pfx line.tail = true := by simpa using hocc
  simp [procLine, mkStateL, hl, hhit, htts, ht, truOf_append, tstOf_append,
    truOf_single_hit, tstOf_single_hit, hocc, hocc', lastHeaderD_append,
    slot1header, slot1seq, slot2header, slot2seq, lastHeaderD]

theorem procHeaderMissFirst (pfx line : List Char) (full : List FastaRecord)
    (rn : Nat) (hl : isHeader line = true) (hhit : headerHit pfx line = false)
    (hemp : tstOf pfx full = []) :
    procLine pfx (mkStateL pfx full rn) line
      = mkStateL pfx (full ++ [⟨line.drop 1, []⟩]) 3 := by
  have hocc : occursIn pfx (line.drop 1) = false := hhit
  have hocc' : occursIn pfx line.tail = false := by simpa using hocc
  simp [procLine, mkStateL, hl, hhit, hemp, truOf_append, tstOf_append,
    truOf_single_miss, tstOf_single_miss, hocc, hocc',
    slot1header, slot1seq, slot2header, slot2seq, lastHeaderD]

theorem procHeaderMissSecond (pfx line : List Char) (full : List FastaRecord)
    (rn : Nat) (hl : isHeader line = true) (hhit : headerHit pfx line = false)
    (t : FastaRecord) (ts : List FastaRecord)
    (htts : tstOf pfx full = t :: ts) (ht : t.header ≠ []) :
    procLine pfx (mkStateL pfx full rn) line
      = mkStateL pfx (full ++ [⟨line.drop 1, []⟩]) 4 := by
  have hocc : occursIn pfx (line.drop 1) = false := hhit
  have hocc' : occursIn pfx line.tail = false := by simpa using hocc
  simp [procLine, mkStateL, hl, hhit, htts, ht, truOf_append, tstOf_append,
    truOf_single_miss, tstOf_single_miss, hocc, hocc', lastHeaderD_append,
    slot1header, slot1seq, slot2header, slot2seq, lastHeaderD]

theorem procSeqHitFirst (pfx line : List Char) (done : List FastaRecord)
    (r : FastaRecord) (hl : isHeader line = false)
    (hr : occursIn pfx r.header = true) (hemp : truOf pfx done = []) :
    procLine pfx (mkStateL pfx (done ++ [r]) 1) line
      = mkStateL pfx (done ++ [⟨r.header, r.seq ++ line⟩]) 1 := by
  simp [procLine, mkStateL, hl, hr, hemp, truOf_append, tstOf_append,
    truOf_single_hit, tstOf_single_hit,
    slot1header, slot1seq, slot2header, slot2seq, lastHeaderD]

theorem procSeqHitSecond (pfx line : List Char) (done : List FastaRecord)
    (r : FastaRecord) (t : FastaRecord) (ts : List FastaRecord)
    (hl : isHeader line = false)
    (hr : occursIn pfx r.header = true) (htts : truOf pfx done = t :: ts) :
    procLine pfx (mkStateL pfx (done ++ [r]) 2) line
      = mkStateL pfx (done ++ [⟨r.header, r.seq ++ line⟩]) 2 := by
  simp [procLine, mkStateL, hl, hr, htts, truOf_append, tstOf_append,
    truOf_single_hit, tstOf_single_hit, lastHeaderD_append,
    slot1header, slot1seq, slot2header, slot2seq, lastHeaderD]

theorem procSeqMissFirst (pfx line : List Char) (done : List FastaRecord)
    (r : FastaRecord) (hl : isHeader line = false)
    (hr : occursIn pfx r.header = false) (hemp : tstOf pfx done = []) :
    procLine pfx (mkStateL pfx (done ++ [r]) 3) line
      = mkStateL pfx (done ++ [⟨r.header, r.seq ++ line⟩]) 3 := by
  simp [procLine, mkStateL, hl, hr, hemp, truOf_append, tstOf_append,
    truOf_single_miss, tstOf_single_miss,
    slot1header, slot1seq, slot2header, slot2seq, lastHeaderD]

theorem procSeqMissSecond (pfx line : List Char) (done : List FastaRecord)
    (r : FastaRecord) (t : FastaRecord) (ts : List FastaRecord)
    (hl : isHeader line = false)
    (hr : occursIn pfx r.header = false) (htts : tstOf pfx done = t :: ts) :
    procLine pfx (mkStateL pfx (done ++ [r]) 4) line
      = mkStateL pfx (done ++ [⟨r.header, r.seq ++ line⟩]) 4 := by
  simp [procLine, mkStateL, hl, hr, htts, truOf_append, tstOf_append,
    truOf_single_miss, tstOf_single_miss, lastHeaderD_append,
    slot1header, slot1seq, slot2header, slot2seq, lastHeaderD]

theorem procLine_mkState (pfx line : List Char)
    (acc : List FastaRecord × Option FastaRecord)
    (hwf : WfAcc acc) :
    procLine pfx (mkState pfx acc) line = mkState pfx (addLine acc line) := by
  obtain ⟨done, cur⟩ := acc
  obtain ⟨hhead, hcur⟩ := hwf
  have htruh : ∀ r ∈ truOf pfx (done ++ cur.toList), r.header ≠ [] :=
    fun r hr => hhead r (List.mem_of_mem_filter hr)
  have htsth : ∀ r ∈ tstOf pfx (done ++ cur.toList), r.header ≠ [] :=
    fun r hr => hhead r (List.mem_of_mem_filter hr)
  by_cases hl : isHeader line = true
  · have haddl : addLine (done, cur) line
        = (done ++ cur.toList, some ⟨line.drop 1, []⟩) := by
      simp [addLine, hl]
    rw [haddl]
    have hmk : mkState pfx (done, cur)
        = mkStateL pfx (done ++ cur.toList) (rnFor pfx done cur) := rfl
    have hmk2 : mkState pfx (done ++ cur.toList, some ⟨line.drop 1, []⟩)
        = mkStateL pfx ((done ++ cur.toList) ++ [⟨line.drop 1, []⟩])
            (rnFor pfx (done ++ cur.toList) (some ⟨line.drop 1, []⟩)) := rfl
    rw [hmk, hmk2]
    by_cases hhit : headerHit pfx line = true
    · have hocc : occursIn pfx (line.drop 1) = true := hhit
      have hocc' : occursIn pfx line.tail = true := by simpa using hocc
      by_cases hemp : truOf pfx (done ++ cur.toList) = []
      · have hrn : rnFor pfx (done ++ cur.toList) (some ⟨line.drop 1, []⟩) = 1 := by
          simp [rnFor, hocc', hemp]
        rw [hrn]
        exact procHeaderHitFirst pfx line _ _ hl hhit hemp
      · obtain ⟨t, ts, htts⟩ : ∃ t ts, truOf pfx (done ++ cur.toList) = t :: ts := by
          cases h : truOf pfx (done ++ cur.toList) with
          | nil => exact absurd h hemp
          | cons t ts => exact ⟨t, ts, rfl⟩
        have ht : t.header ≠ [] := htruh t (by rw [htts]; exact List.mem_cons_self t ts)
        have hrn : rnFor pfx (done ++ cur.toList) (some ⟨line.drop 1, []⟩) = 2 := by
          simp [rnFor, hocc', hemp]
        rw [hrn]
        exact procHeaderHitSecond pfx line _ _ hl hhit t ts htts ht
    · have hhit' : headerHit pfx line = false := by simpa using hhit
      have hocc : occursIn pfx (line.drop 1) = false := hhit'
      have hocc' : occursIn pfx line.tail = false := by simpa using hocc
      by_cases hemp : tstOf pfx (done ++ cur.toList) = []
      · have hrn : rnFor pfx (done ++ cur.toList) (some ⟨line.drop 1, []⟩) = 3 := by
          simp [rnFor, hocc', hemp]
        rw [hrn]
        exact procHeaderMissFirst pfx line _ _ hl hhit' hemp
      · obtain ⟨t, ts, htts⟩ : ∃ t ts, tstOf pfx (done ++ cur.toList) = t :: ts := by
          cases h : tstOf pfx (done ++ cur.toList) with
          | nil => exact absurd h hemp
          | cons t ts => exact ⟨t, ts, rfl⟩
        have ht : t.header ≠ [] := htsth t (by rw [htts]; exact List.mem_cons_self t ts)
        have hrn : rnFor pfx (done ++ cur.toList) (some ⟨line.drop 1, []⟩) = 4 := by
          simp [rnFor, hocc', hemp]
        rw [hrn]
        exact procHeaderMissSecond pfx line _ _ hl hhit' t ts htts ht
  · have hl' : isHeader line = false := by simpa using hl
    cases cur with
    | none =>
      have hdone : done = [] := hcur rfl
      subst hdone
      have haddl : addLine ([], none) line = (([] : List FastaRecord), (none : Option FastaRecord)) := by
        simp [addLine, hl']
      rw [haddl]
      show procLine pfx (mkStateL pfx [] 0) line = mkStateL pfx [] 0
      simp [procLine, mkStateL, hl']
    | some r =>
      have haddl : addLine (done, some r) line
          = (done, some ⟨r.header, r.seq ++ line⟩) := by
        simp [addLine, hl']
      rw [haddl]
      by_cases hr : occursIn pfx r.header = true
      · by_cases hemp : truOf pfx done = []
        · show procLine pfx (mkStateL pfx (done ++ [r]) (rnFor pfx done (some r))) line
            = mkStateL pfx (done ++ [⟨r.header, r.seq ++ line⟩])
                (rnFor pfx done (some ⟨r.header, r.seq ++ line⟩))
          have e1 : rnFor pfx done (some r) = 1 := by simp [rnFor, hr, hemp]
          have e2 : rnFor pfx done (some ⟨r.header, r.seq ++ line⟩) = 1 := by
            simp [rnFor, hr, hemp]
          rw [e1, e2]
          exact procSeqHitFirst pfx line done r hl' hr hemp
        · obtain ⟨t, ts, htts⟩ : ∃ t ts, truOf pfx done = t :: ts := by
            cases h : truOf pfx done with
            | nil => exact absurd h hemp
            | cons t ts => exact ⟨t, ts, rfl⟩
          show procLine pfx (mkStateL pfx (done ++ [r]) (rnFor pfx done (some r))) line
            = mkStateL pfx (done ++ [⟨r.header, r.seq ++ line⟩])
                (rnFor pfx done (some ⟨r.header, r.seq ++ line⟩))
          have e1 : rnFor pfx done (some r) = 2 := by simp [rnFor, hr, htts]
          have e2 : rnFor pfx done (some ⟨r.header, r.seq ++ line⟩) = 2 := by
            simp [rnFor, hr, htts]
          rw [e1, e2]
          exact procSeqHitSecond pfx line done r t ts hl' hr htts
      · have hr' : occursIn pfx r.header = false := by simpa using hr
        by_cases hemp : tstOf pfx done = []
        · show procLine pfx (mkStateL pfx (done ++ [r]) (rnFor pfx done (some r))) line
            = mkStateL pfx (done ++ [⟨r.header, r.seq ++ line⟩])
                (rnFor pfx done (some ⟨r.header, r.seq ++ line⟩))
          have e1 : rnFor pfx done (some r) = 3 := by simp [rnFor, hr', hemp]
          have e2 : rnFor pfx done (some ⟨r.header, r.seq ++ line⟩) = 3 := by
            simp [rnFor, hr', hemp]
          rw [e1, e2]
          exact procSeqMissFirst pfx line done r hl' hr' hemp
        · obtain ⟨t, ts, htts⟩ : ∃ t ts, tstOf pfx done = t :: ts := by
            cases h : tstOf pfx done with
            | nil => exact absurd h hemp
            | cons t ts => exact ⟨t, ts, rfl⟩
          show procLine pfx (mkStateL pfx (done ++ [r]) (rnFor pfx done (some r))) line
            = mkStateL pfx (done ++ [⟨r.header, r.seq ++ line⟩])
                (rnFor pfx done (some ⟨r.header, r.seq ++ line⟩))
          have e1 : rnFor pfx done (some r) = 4 := by simp [rnFor, hr', htts]
          have e2 : rnFor pfx done (some ⟨r.header, r.seq ++ line⟩) = 4 := by
            simp [rnFor, hr', htts]
          rw [e1, e2]
          exact procSeqMissSecond pfx line done r t ts hl' hr' htts

theorem foldl_procLine_mkState (pfx : List Char) (lines : List (List Char)) :
    ∀ acc : List FastaRecord × Option FastaRecord, WfAcc acc →
    (∀ line ∈ lines, isHeader line = true → line.drop 1 ≠ []) →
    List.foldl (procLine pfx) (mkState pfx acc) lines
      = mkState pfx (List.foldl addLine acc lines) := by
  induction lines with
  | nil => intro acc _ _; rfl
  | cons l rest ih =>
    intro acc hwf hlines
    rw [List.foldl_cons, List.foldl_cons, procLine_mkState pfx l acc hwf]
    exact ih (addLine acc l)
      (addLine_wf acc l hwf (hlines l (by simp)))
      (fun line hm => hlines line (by simp [hm]))

theorem loadAll_mkStateL (pfx : List Char) (lines : List (List Char))
    (hlines : ∀ line ∈ lines, isHeader line = true → line.drop 1 ≠ []) :
    loadAll pfx lines
      = mkStateL pfx (splitRecords lines)
          (rnFor pfx (List.foldl addLine ([], none) lines).1
            (List.foldl addLine ([], none) lines).2) := by
  have hwf : WfAcc (([] : List FastaRecord), (none : Option FastaRecord)) := by
    constructor
    · intro r hr; simp at hr
    · intro _; rfl
  have hinit : initLoader = mkState pfx ([], none) := by
    simp [initLoader, mkState, mkStateL, rnFor, truOf, tstOf,
      slot1header, slot1seq, slot2header, slot2seq]
  unfold loadAll
  rw [hinit, foldl_procLine_mkState pfx lines ([], none) hwf hlines]
  rfl

-- Theorems for the loader claims.

/-- C3 (as stated) is false: slot one is chosen by the emptiness of the
stored header, so when the first record of a class has an empty header
(line `>` alone), the second record of that class lands in slot one again.
Input: marker "T", lines ">", "A", ">x", "C": the claim puts record
(header "", seq "A") into test haplotype 1, but the loader leaves
test haplotype 1 holding "AC" and test haplotype 2 empty. -/
theorem c3_counterexample :
    ¬ c3statement ['T'] [['>'], ['A'], ['>', 'x'], ['C']] := fun h =>
  absurd ((h.2 ⟨[], ['A']⟩ ⟨['x'], ['C']⟩ [] (by decide)).2.1) (by decide)

/-- C3 amended: provided every header line carries a nonempty name after
'>' and each class holds exactly two records, the first two records whose
header contains the marker become true haplotypes 1 and 2 in file order,
and the first two whose header does not become test haplotypes 1 and 2. -/
theorem c3_loader_assignment (pfx : List Char) (lines : List (List Char))
    (hne : ∀ line ∈ lines, isHeader line = true → line.drop 1 ≠ [])
    (r1 r2 r3 r4 : FastaRecord)
    (htru : truOf pfx (splitRecords lines) = [r1, r2])
    (htst : tstOf pfx (splitRecords lines) = [r3, r4]) :
    (loadAll pfx lines).true_one_header = r1.header ∧
    (loadAll pfx lines).true_one = r1.seq ∧
    (loadAll pfx lines).true_two_header = r2.header ∧
    (loadAll pfx lines).true_two = r2.seq ∧
    (loadAll pfx lines).test_one_header = r3.header ∧
    (loadAll pfx lines).test_one = r3.seq ∧
    (loadAll pfx lines).test_two_header = r4.header ∧
    (loadAll pfx lines).test_two = r4.seq := by
  rw [loadAll_mkStateL pfx lines hne]
  simp [mkStateL, htru, htst, slot1header, slot1seq, slot2header, slot2seq,
    lastHeaderD]

/-- Witness for the amended C3 on a well-formed four-record alignment. -/
theorem c3_loader_assignment_witness :
    (loadAll ['t', 'r']
      [['>', 't', 'r', '1'], ['A', 'C'], ['>', 't', 'r', '2'], ['A', 'G'],
       ['>', 'h', '1'], ['A', 'G'], ['>', 'h', '2'], ['A', 'C']]).true_one
        = ['A', 'C'] ∧
    (loadAll ['t', 'r']
      [['>', 't', 'r', '1'], ['A', 'C'], ['>', 't', 'r', '2'], ['A', 'G'],
       ['>', 'h', '1'], ['A', 'G'], ['>', 'h', '2'], ['A', 'C']]).test_two
        = ['A', 'C'] := by
  have h := c3_loader_assignment ['t', 'r']
    [['>', 't', 'r', '1'], ['A', 'C'], ['>', 't', 'r', '2'], ['A', 'G'],
     ['>', 'h', '1'], ['A', 'G'], ['>', 'h', '2'], ['A', 'C']]
    (by decide)
    ⟨['t', 'r', '1'], ['A', 'C']⟩ ⟨['t', 'r', '2'], ['A', 'G']⟩
    ⟨['h', '1'], ['A', 'G']⟩ ⟨['h', '2'], ['A', 'C']⟩
    (by decide) (by decide)
  exact ⟨h.2.1, h.2.2.2.2.2.2.2⟩

/-- C10 (as stated) is false for the same reason as C3: with empty headers
the extra records of a class do not reach slot two. Input: marker "T",
lines ">", "A", ">", "B", ">x", "C": the third test-class record should
put header "x" into test haplotype 2's header, but the loader leaves that
header empty (everything accumulated in slot one). -/
theorem c10_counterexample :
    ¬ c10statement ['T'] [['>'], ['A'], ['>'], ['B'], ['>', 'x'], ['C']] := fun h =>
  absurd ((h.2 ⟨[], ['A']⟩ ⟨[], ['B']⟩ ⟨['x'], ['C']⟩ [] (by decide)).1) (by decide)

/-- C10 amended: provided every header line carries a nonempty name after
'>', in a class with more than two records every record after the second
lands in slot two: the slot-two header ends up as the last record's header
and the slot-two sequence is the concatenation of the sequences of the
second and all later records of that class. -/
theorem c10_extra_records (pfx : List Char) (lines : List (List Char))
    (hne : ∀ line ∈ lines, isHeader line = true → line.drop 1 ≠ []) :
    (∀ r1 r2 r3 rest, truOf pfx (splitRecords lines) = r1 :: r2 :: r3 :: rest →
      (loadAll pfx lines).true_two_header = lastHeaderD (r2 :: r3 :: rest) ∧
      (loadAll pfx lines).true_two
        = ((r2 :: r3 :: rest).map FastaRecord.seq).flatten) ∧
    (∀ r1 r2 r3 rest, tstOf pfx (splitRecords lines) = r1 :: r2 :: r3 :: rest →
      (loadAll pfx lines).test_two_header = lastHeaderD (r2 :: r3 :: rest) ∧
      (loadAll pfx lines).test_two
        = ((r2 :: r3 :: rest).map FastaRecord.seq).flatten) := by
  rw [loadAll_mkStateL pfx lines hne]
  constructor
  · intro r1 r2 r3 rest htru
    simp [mkStateL, htru, slot2header, slot2seq]
  · intro r1 r2 r3 rest htst
    simp [mkStateL, htst, slot2header, slot2seq]

/-- Witness for the amended C10 on a three-record test class. -/
theorem c10_extra_records_witness :
    (loadAll ['T']
      [['>', 'a'], ['A'], ['>', 'b'], ['B'], ['>', 'c'], ['C']]).test_two_header
        = ['c'] ∧
    (loadAll ['T']
      [['>', 'a'], ['A'], ['>', 'b'], ['B'], ['>', 'c'], ['C']]).test_two
        = ['B', 'C'] := by
  have h := (c10_extra_records ['T']
      [['>', 'a'], ['A'], ['>', 'b'], ['B'], ['>', 'c'], ['C']]
      (by decide)).2
    ⟨['a'], ['A']⟩ ⟨['b'], ['B']⟩ ⟨['c'], ['C']⟩ [] (by decide)
  exact ⟨h.1.trans (by decide), h.2.trans (by decide)⟩

/-- C9: the run exits 0 exactly on the success path (no argument or I/O
failure recorded), and the six failure kinds each carry their own distinct
small positive exit code (1, 3, 4, 5, 6, 7). -/
theorem c9_exit_codes :
    successExitCode = 0 ∧
    (∀ hf : Nat, ∀ rb : Bool, exitAfterArgs hf rb = 0 ↔ hf = 0 ∧ rb = false) ∧
    (∀ f : CliFailure, f ∈ allFailures) ∧
    (allFailures.map failureExitCode).Nodup ∧
    (∀ f : CliFailure, 0 < failureExitCode f ∧ failureExitCode f ≤ 7) := by
  refine ⟨rfl, ?_, ?_, ?_, ?_⟩
  · intro hf rb
    unfold exitAfterArgs
    by_cases h : hf = 0
    · subst h
      cases rb <;> simp
    · simp [h]
  · intro f; cases f <;> simp [allFailures]
  · decide
  · intro f; cases f <;> simp [failureExitCode]
